import Mathlib

/-!
Verification of the jlcpcb_scraper repository (src/jlcpcb_scraper/scraper.py and
src/jlcpcb_scraper/main.py) against its natural-language specification.

The Python code is shallowly embedded: dictionaries coming from JSON are
structures with `Option`-valued fields (a `none` field models an absent key;
bracket access `d['k']` on an absent key raises `KeyError`, modelled by
`Except Unit`; `d.get('k')` yields the `Option` directly).  Python floats are
modelled as exact rationals (`Rat`); `datetime` values as integer seconds.
The external `models` module (`create_or_update_category`) is modelled by an
arbitrary oracle function parameter; `create_or_update_part` returns a value
the source ignores, so part upserts are identified with the `new_parts` list
(the source performs exactly one `create_or_update_part` per appended part,
scraper.py lines 162-163).
-/

namespace Jlcpcb

/-- Model of `models.Category`: `{id, name, subcategory_name}`.  A freshly constructed
`Category(name=..., subcategory_name=...)` has no id yet (`id = none`). -/
structure Category where
  id : Option Int
  name : Option String
  subcategory_name : Option String
deriving DecidableEq

/-- One JSON component record from a `getComponentInfos` page (§6 of the spec:
fields consumed are lcscPart, mfrPart, package, solderJoint, manufacturer,
libraryType, description, datasheet, stock, price, firstCategory,
secondCategory).  `none` models an absent key.  `solderJoint` and `stock` are
kept as integers: the source applies `int(...)` to them, which is the identity
on integer JSON values. -/
structure Component where
  lcscPart : Option String
  mfrPart : Option String
  package : Option String
  solderJoint : Option Int
  manufacturer : Option String
  libraryType : Option String
  description : Option String
  datasheet : Option String
  stock : Option Int
  price : Option String
  firstCategory : Option String
  secondCategory : Option String
deriving DecidableEq

/-- Model of `models.Part` as constructed in scraper.py lines 148-161.  `price` is the
result of `get_part_price` (a float or `None`, here an exact rational);
`last_update` is the `datetime.now()` at construction, as integer seconds. -/
structure Part where
  lcsc : String
  category_id : Option Int
  mfr : String
  package : String
  joints : Int
  manufacturer : String
  basic : Bool
  description : String
  datasheet : String
  stock : Int
  price : Option Rat
  last_update : Int
deriving DecidableEq

/-- Source `JlcpcbScraper.category_exists` (scraper.py lines 188-189):
`any([category.subcategory_name == subcategory_name for category in self.categories])`.
The key has type `Option String` because the category-processing phase passes
the raw result of `component.get('secondCategory')` (possibly `None`). -/
def category_exists (categories : List Category) (subcategory_name : Option String) : Bool :=
  categories.any (fun category => category.subcategory_name == subcategory_name)

/-- Source `JlcpcbScraper.get_category` (scraper.py lines 191-192):
`next((category for category in self.categories if category.subcategory_name == subcategory_name), None)`. -/
def get_category (categories : List Category) (subcategory_name : Option String) : Option Category :=
  categories.find? (fun category => category.subcategory_name == subcategory_name)

/-- The category-processing phase of `extract_and_process_components`
(scraper.py lines 128-136), folded over the page's component records.
State carried: `self.categories`; result also returns `new_categories` in
append order.  `oracle` models the external `create_or_update_category`:
its return value is only used for the `category not in self.categories`
membership test; the element appended is the locally built `new_category`,
exactly as in the source. -/
def processCategories (oracle : Category → Category) :
    List Category → List Component → List Category × List Category
  | categories, [] => (categories, [])
  | categories, component :: rest =>
    let category_name := component.firstCategory
    let subcategory_name := component.secondCategory
    if category_exists categories subcategory_name then
      processCategories oracle categories rest
    else
      let new_category : Category :=
        { id := none, name := category_name, subcategory_name := subcategory_name }
      let category := oracle new_category
      if category ∈ categories then
        processCategories oracle categories rest
      else
        let next := processCategories oracle (categories ++ [new_category]) rest
        (next.1, new_category :: next.2)

/-- Python `str.split(sep)` for a one-character separator, on the character
list of the string: `''.split(',')` is `['']`, `'a,'.split(',')` is `['a','']`. -/
def pySplit (sep : Char) : List Char → List (List Char)
  | [] => [[]]
  | c :: rest =>
    let r := pySplit sep rest
    if c = sep then [] :: r else (c :: r.headI) :: r.tail

/-- Numeric value of a digit string, most significant digit first. -/
def digitsVal (l : List Char) : Nat :=
  l.foldl (fun a c => a * 10 + (c.toNat - 48)) 0

/-- All characters are ASCII digits. -/
def allDigits (l : List Char) : Bool := l.all (·.isDigit)

/-- Optional sign prefix of a Python float literal. -/
def pyFloatSign : List Char → Int × List Char
  | '+' :: r => (1, r)
  | '-' :: r => (-1, r)
  | r => (1, r)

/-- Mantissa of a Python float literal: `digits`, `digits.`, `.digits` or
`digits.digits`.  Returns the digit string's value with the point removed,
together with the number of fractional digits. -/
def pyFloatMantissa (m : List Char) : Option (Nat × Nat) :=
  match pySplit '.' m with
  | [i] => if allDigits i = true ∧ i ≠ [] then some (digitsVal i, 0) else none
  | [i, f] =>
    if allDigits i = true ∧ allDigits f = true ∧ (i ≠ [] ∨ f ≠ []) then
      some (digitsVal i * Nat.pow 10 f.length + digitsVal f, f.length)
    else none
  | _ => none

/-- Exponent field of a Python float literal: optional sign, then digits. -/
def pyFloatExponent (t : List Char) : Option Int :=
  let p := pyFloatSign t
  if allDigits p.2 = true ∧ p.2 ≠ [] then some (p.1 * (digitsVal p.2 : Int)) else none

/-- Model of Python `float()` on a character list: strips surrounding
whitespace, accepts an optional sign, a decimal mantissa and an optional
`e`/`E` exponent, and returns the exact rational value of the literal;
returns `none` (ValueError) otherwise.  `inf`/`nan` literals and
digit-group underscores are not modelled (they never occur in price data). -/
def pyFloat (s : List Char) : Option Rat :=
  let t0 := ((s.dropWhile Char.isWhitespace).reverse.dropWhile Char.isWhitespace).reverse
  let t := t0.map (fun c => if c = 'E' then 'e' else c)
  let p := pyFloatSign t
  let frac : Option (Nat × Int) :=
    match pySplit 'e' p.2 with
    | [m] => (pyFloatMantissa m).map (fun mv => (mv.1, -(mv.2 : Int)))
    | [m, ex] =>
      match pyFloatMantissa m, pyFloatExponent ex with
      | some mv, some e => some (mv.1, e - (mv.2 : Int))
      | _, _ => none
    | _ => none
  frac.map (fun me =>
    if 0 ≤ me.2 then mkRat (p.1 * ((me.1 * Nat.pow 10 me.2.toNat : Nat) : Int)) 1
    else mkRat (p.1 * (me.1 : Int)) (Nat.pow 10 (-me.2).toNat))

/-- Source `JlcpcbScraper.get_part_price` (scraper.py lines 173-186): `None` for an
empty price string (`if not price`); otherwise split on `','`, take element 0,
split it on `':'` and convert element 1 with `float(...)`.  Every failure
(IndexError when there is no `':'` field, ValueError from `float`) is caught
by the bare `except` and yields `None`. -/
def get_part_price (price : String) : Option Rat :=
  if price.data.isEmpty then none
  else
    match (pySplit ':' (pySplit ',' price.data).headI).get? 1 with
    | none => none
    | some p => pyFloat p

/-- The `Part(...)` constructor call of scraper.py lines 148-161, evaluated on
the raw record: every field is read with bracket access (`part_data['...']`),
so any absent field raises `KeyError` (modelled as `none` here, turned into
`Except.error` by the caller).  `basic` is `part_data['libraryType'] == 'base'`. -/
def buildPart (category : Category) (now : Int) (part_price : Option Rat) (stock : Int)
    (pd : Component) : Option Part :=
  match pd.lcscPart, pd.mfrPart, pd.package, pd.solderJoint, pd.manufacturer,
      pd.libraryType, pd.description, pd.datasheet with
  | some lcsc, some mfr, some pkg, some sj, some manu, some lib, some desc, some ds =>
    some { lcsc := lcsc, category_id := category.id, mfr := mfr, package := pkg,
           joints := sj, manufacturer := manu, basic := lib == "base",
           description := desc, datasheet := ds, stock := stock,
           price := part_price, last_update := now }
  | _, _, _, _, _, _, _, _ => none

/-- The body of the part-processing loop of `extract_and_process_components`
(scraper.py lines 139-163) for one component record `part_data`:
`Except.error ()` models a `KeyError` escaping (it aborts the whole call);
`Except.ok none` means the record was skipped (zero stock) or rejected
(unresolvable subcategory, logged); `Except.ok (some part)` means `part` was
appended to `new_parts` and upserted with `create_or_update_part`. -/
def process_part_record (categories : List Category) (now : Int) (pd : Component) :
    Except Unit (Option Part) :=
  match pd.stock with
  | none => Except.error ()
  | some stock =>
    if stock = 0 then Except.ok none
    else
      match pd.secondCategory with
      | none => Except.error ()
      | some psn =>
        match get_category categories (some psn) with
        | none => Except.ok none
        | some category =>
          match pd.price with
          | none => Except.error ()
          | some priceStr =>
            match buildPart category now (get_part_price priceStr) stock pd with
            | none => Except.error ()
            | some part => Except.ok (some part)

/-- Payload of a `getComponentInfos` response: `componentInfos` (read with
`.get('componentInfos', [])`, so an absent list is the same as an empty one)
and `lastKey` (read with `.get('lastKey', None)`). -/
structure RespData where
  componentInfos : List Component
  lastKey : Option String
deriving DecidableEq

/-- A page response: `code` is `response.get("code")`, `data` is
`response.get('data', {})`. -/
structure Response where
  code : Option Int
  data : Option RespData
deriving DecidableEq

/-- Python `response.get('data', {}).get('componentInfos', [])`. -/
def Response.infos (r : Response) : List Component :=
  match r.data with
  | some d => d.componentInfos
  | none => []

/-- Python `response.get('data', {}).get('lastKey', None)`. -/
def Response.lastKeyOf (r : Response) : Option String :=
  match r.data with
  | some d => d.lastKey
  | none => none

/-- The part-processing loop of `extract_and_process_components` over a whole
page (scraper.py lines 139-163): collects the accepted parts in order; a
`KeyError` escaping any record aborts the whole call. -/
def processParts (categories : List Category) (now : Int) :
    List Component → Except Unit (List Part)
  | [] => Except.ok []
  | pd :: rest =>
    match process_part_record categories now pd with
    | Except.error err => Except.error err
    | Except.ok none => processParts categories now rest
    | Except.ok (some part) =>
      match processParts categories now rest with
      | Except.error err => Except.error err
      | Except.ok parts => Except.ok (part :: parts)

/-- Source `JlcpcbScraper.extract_and_process_components` (scraper.py lines 123-165):
the category phase first (updating `self.categories`), then the part phase
against the updated index.  Returns `(new_parts, new_categories, updated
categories index)`. -/
def extract_and_process_components (oracle : Category → Category)
    (categories : List Category) (now : Int) (response : Response) :
    Except Unit (List Part × List Category × List Category) :=
  let catStep := processCategories oracle categories response.infos
  match processParts catStep.1 now response.infos with
  | Except.error err => Except.error err
  | Except.ok new_parts => Except.ok (new_parts, catStep.2, catStep.1)

/-- The mutable state of a `get_parts` run (scraper.py lines 89-121) together
with the scraper's token state: `self.categories`, the accumulators
`all_parts` / `all_categories`, the cursor `last_key`, the `parts_fetched`
flag and `self.token_expires` (integer seconds). -/
structure LoopState where
  categories : List Category
  all_parts : List Part
  all_categories : List Category
  last_key : Option String
  parts_fetched : Bool
  token_expires : Int
deriving DecidableEq

/-- Application of one completed page response to the loop state (scraper.py
lines 107-118): on `code == 200` with nonempty `componentInfos` the page is
processed, the accumulators extended, the cursor advanced to the page's
returned `lastKey` and `parts_fetched` set to `bool(parts)`; otherwise
`parts_fetched` is set to `False`. -/
def applyPage (oracle : Category → Category) (now : Int) (st : LoopState)
    (response : Response) : Except Unit LoopState :=
  if response.code = some 200 ∧ response.infos ≠ [] then
    match extract_and_process_components oracle st.categories now response with
    | Except.error err => Except.error err
    | Except.ok r =>
      Except.ok { st with
        categories := r.2.2,
        all_parts := st.all_parts ++ r.1,
        all_categories := st.all_categories ++ r.2.1,
        last_key := response.lastKeyOf,
        parts_fetched := !r.1.isEmpty }
  else Except.ok { st with parts_fetched := false }

/-- The parts a page contributes when applied at state `st` (the `parts` of
scraper.py line 111; empty when the call raises). -/
def accepted_parts (oracle : Category → Category) (now : Int) (st : LoopState)
    (response : Response) : List Part :=
  match extract_and_process_components oracle st.categories now response with
  | Except.ok r => r.1
  | Except.error _ => []

/-- The token guard run at the top of each loop iteration (scraper.py lines
99-100) together with `_obtain_token` (lines 44-65): when the locally tracked
expiry has passed, a fresh token valid for 1800 seconds (30 minutes) from now
is obtained.  A handshake failure raises and is fatal (out of scope here). -/
def ensureToken (now : Int) (st : LoopState) : LoopState :=
  if st.token_expires < now then { st with token_expires := now + 1800 } else st

/-- Trace state of one `get_parts` run: the loop state, the futures ever
submitted (`future_to_url` is never pruned; future `i` holds the response to
the request submitted in iteration `i`), the submission log (time and
`token_expires` at each page request) and the application log (which future
was applied to shared state, in order). -/
structure RunState where
  st : LoopState
  futures : List Response
  fetchLog : List (Int × Int)
  applyLog : List Nat
deriving DecidableEq

/-- The inner `for future in as_completed(future_to_url)` loop (scraper.py
lines 107-118): applies the futures listed by the completion order `order`
(indices into `futures`) to the state, one after the other. -/
def applyFutures (oracle : Category → Category) (now : Int) :
    List Nat → RunState → Except Unit RunState
  | [], rs => Except.ok rs
  | i :: rest, rs =>
    match rs.futures.get? i with
    | none => applyFutures oracle now rest rs
    | some response =>
      match applyPage oracle now rs.st response with
      | Except.error err => Except.error err
      | Except.ok st1 =>
        applyFutures oracle now rest
          { rs with st := st1, applyLog := rs.applyLog ++ [i] }

/-- One iteration of the `while parts_fetched` loop (scraper.py lines
98-121): token guard, submission of the next page request (`session.post`
with body `{"lastKey": last_key}` when the cursor is set), then application
of completed futures in the order `order`.  `api` models the vendor endpoint
as a function of the request cursor.  The source updates the token state once
before submitting; `ensureToken` is pure, so the repeated calls below denote
that single updated state. -/
def runIter (oracle : Category → Category) (api : Option String → Response)
    (t : Int) (order : List Nat) (rs : RunState) : Except Unit RunState :=
  applyFutures oracle t order
    { rs with
      st := ensureToken t rs.st,
      futures := rs.futures ++ [api (ensureToken t rs.st).last_key],
      fetchLog := rs.fetchLog ++ [(t, (ensureToken t rs.st).token_expires)] }

/-- The `while parts_fetched` loop of `get_parts`, driven by a schedule: one
`(time, completion order)` pair per iteration (the model's fuel).  The body
runs only while `parts_fetched` holds, matching the `while` condition and the
final `break` (lines 120-121). -/
def get_parts_run (oracle : Category → Category) (api : Option String → Response) :
    List (Int × List Nat) → RunState → Except Unit RunState
  | [], rs => Except.ok rs
  | (t, order) :: rest, rs =>
    if rs.st.parts_fetched then
      match runIter oracle api t order rs with
      | Except.error err => Except.error err
      | Except.ok rs1 => get_parts_run oracle api rest rs1
    else Except.ok rs

/-- The loop state right after initialization: empty accumulators, no cursor,
flag raised, token obtained at time 0 (expiry 1800). -/
def stReady : LoopState :=
  { categories := [], all_parts := [], all_categories := [], last_key := none,
    parts_fetched := true, token_expires := 1800 }

/-- A non-success page response. -/
def respBad : Response := { code := some 500, data := none }

/-- State `stReady` after a terminating page application. -/
def stStopped : LoopState := { stReady with parts_fetched := false }

/-- A one-component in-stock page record for the concurrency fixture. -/
def pageComp (lcsc : String) : Component :=
  { lcscPart := some lcsc, mfrPart := some "M", package := some "0402",
    solderJoint := some 2, manufacturer := some "F", libraryType := some "base",
    description := some "d", datasheet := some "u", stock := some 10,
    price := some "10-:0.5", firstCategory := some "Cat", secondCategory := some "S" }

/-- First page of the concurrency fixture (cursor `none`). -/
def page0 : Response :=
  { code := some 200, data := some { componentInfos := [pageComp "C0"], lastKey := some "k0" } }

/-- Second page of the concurrency fixture (cursor "k0"). -/
def page1 : Response :=
  { code := some 200, data := some { componentInfos := [pageComp "C1"], lastKey := some "k1" } }

/-- Third page of the concurrency fixture (cursor "k1"). -/
def page2 : Response :=
  { code := some 200, data := some { componentInfos := [pageComp "C2"], lastKey := some "k2" } }

/-- The three-page vendor API: the first request (no cursor) returns `page0`,
cursor "k0" returns `page1`, cursor "k1" returns `page2`, anything else an
empty success page. -/
def api3 : Option String → Response
  | none => page0
  | some "k0" => page1
  | some "k1" => page2
  | _ => { code := some 200, data := none }

/-- Initial trace state of a run. -/
def rs0 : RunState := { st := stReady, futures := [], fetchLog := [], applyLog := [] }

/-- Model of main.py line 79: `chunks = math.ceil(total_parts / 100)`. -/
def chunks (total_parts : Nat) : Nat := (total_parts + 99) / 100

/-- Model of main.py line 80: `parts_per_chunk = math.ceil(total_parts / chunks)`;
`none` models the `ZeroDivisionError` raised when `chunks` is zero, which
happens exactly at `total_parts = 0`. -/
def parts_per_chunk (total_parts : Nat) : Option Nat :=
  if chunks total_parts = 0 then none
  else some ((total_parts + chunks total_parts - 1) / chunks total_parts)

/-- Model of main.py lines 83-90: batch `i` queries
`session.query(Part).offset(i * parts_per_chunk).limit(parts_per_chunk)`,
i.e. the part indices `[i*s, min n (i*s + s))` of the `n` stored parts. -/
def batch_of (n s i : Nat) : List Nat := ((List.range n).drop (i * s)).take s

/-- A concrete stored category used by several witnesses. -/
def catR : Category :=
  { id := some 7, name := some "Passives", subcategory_name := some "Resistors" }

/-- A concrete accepted component record (in stock, known subcategory,
`libraryType` exactly "base"). -/
def compBase : Component :=
  { lcscPart := some "C25744", mfrPart := some "0402WGF1000TCE", package := some "0402",
    solderJoint := some 2, manufacturer := some "UNIROYAL", libraryType := some "base",
    description := some "100Ohm resistor", datasheet := some "u", stock := some 100,
    price := some "20-180:0.004285714", firstCategory := some "Passives",
    secondCategory := some "Resistors" }

/-- The `Part` the source constructs from `compBase` against the index
`[catR]` at time 0. -/
def partBase : Part :=
  { lcsc := "C25744", category_id := some 7, mfr := "0402WGF1000TCE", package := "0402",
    joints := 2, manufacturer := "UNIROYAL", basic := true, description := "100Ohm resistor",
    datasheet := "u", stock := 100, price := some (mkRat 4285714 1000000000),
    last_update := 0 }

theorem category_exists_eq_false_iff (categories : List Category) (k : Option String) :
    category_exists categories k = false ↔ ∀ c ∈ categories, c.subcategory_name ≠ k := by
  unfold category_exists
  rw [← Bool.not_eq_true, List.any_eq_true]
  push_neg
  constructor
  · intro h c hc
    have := h c hc
    simpa using this
  · intro h c hc
    simpa using h c hc

theorem nodup_concat_of_not_mem {α : Type} (l : List α) (a : α)
    (hl : l.Nodup) (ha : a ∉ l) : (l ++ [a]).Nodup := by
  rw [List.nodup_append]
  refine ⟨hl, List.nodup_singleton a, ?_⟩
  intro x hx hx1
  rw [List.mem_singleton] at hx1
  subst hx1
  exact ha hx

theorem processCategories_nodup (oracle : Category → Category)
    (comps : List Component) (categories : List Category)
    (h : (categories.map (·.subcategory_name)).Nodup) :
    (((processCategories oracle categories comps).1.map (·.subcategory_name)).Nodup) := by
  induction comps generalizing categories with
  | nil => simpa [processCategories] using h
  | cons component rest ih =>
    simp only [processCategories]
    split
    next hex => exact ih categories h
    next hex =>
      split
      next hmem => exact ih categories h
      next hmem =>
        refine ih _ ?_
        rw [List.map_append]
        refine nodup_concat_of_not_mem _ _ h ?_
        intro hin
        rw [List.mem_map] at hin
        obtain ⟨c, hc, hcn⟩ := hin
        have hex' : category_exists categories component.secondCategory = false := by
          simpa using hex
        exact (category_exists_eq_false_iff categories component.secondCategory).1 hex' c hc
          (by simpa using hcn)

/-- Claim C4: starting from a categories list whose subcategory names are
pairwise distinct, the category-processing phase of
`extract_and_process_components` preserves that invariant: a category is
appended to `self.categories` only when `category_exists` is false for its
subcategory name, so no two entries ever share a subcategory name. -/
theorem category_index_nodup_invariant :
    ∀ (oracle : Category → Category) (categories : List Category) (comps : List Component),
      (categories.map (·.subcategory_name)).Nodup →
      (((processCategories oracle categories comps).1.map (·.subcategory_name)).Nodup) :=
  fun oracle categories comps h => processCategories_nodup oracle comps categories h

/-- Witness for C4 at a concrete input: two records sharing the subcategory
name "R" produce a single new category entry, and the updated index still has
pairwise-distinct subcategory names. -/
theorem category_index_nodup_invariant_witness :
    (([({ id := some 1, name := some "Passives", subcategory_name := some "C" } : Category)].map
        (·.subcategory_name)).Nodup)
    ∧ (((processCategories (fun c => c)
          [({ id := some 1, name := some "Passives", subcategory_name := some "C" } : Category)]
          [{ lcscPart := none, mfrPart := none, package := none, solderJoint := none,
             manufacturer := none, libraryType := none, description := none, datasheet := none,
             stock := none, price := none, firstCategory := some "Passives",
             secondCategory := some "R" },
           { lcscPart := none, mfrPart := none, package := none, solderJoint := none,
             manufacturer := none, libraryType := none, description := none, datasheet := none,
             stock := none, price := none, firstCategory := some "Passives",
             secondCategory := some "R" }]).1.map (·.subcategory_name)).Nodup) :=
  ⟨by decide, category_index_nodup_invariant (fun c => c) _ _ (by decide)⟩

/-- Claim C9: for every index state and lookup key, `category_exists` returns
true exactly when `get_category` returns a category, and any returned category
has the queried subcategory name. -/
theorem category_exists_agrees_get_category :
    ∀ (categories : List Category) (k : Option String),
      (category_exists categories k = true ↔ (get_category categories k).isSome = true)
      ∧ (∀ c, get_category categories k = some c → c.subcategory_name = k) := by
  intro categories k
  constructor
  · unfold category_exists get_category
    rw [List.any_eq_true, List.find?_isSome]
  · intro c hc
    have := List.find?_some hc
    simpa using this

/-- Witness for C9 at a concrete index and key, with the inner hypothesis
discharged at the concrete category `catR`. -/
theorem category_exists_agrees_get_category_witness :
    ((category_exists [catR] (some "Resistors") = true
        ↔ (get_category [catR] (some "Resistors")).isSome = true)
      ∧ (∀ c, get_category [catR] (some "Resistors") = some c →
          c.subcategory_name = some "Resistors"))
    ∧ catR.subcategory_name = some "Resistors" :=
  ⟨category_exists_agrees_get_category [catR] (some "Resistors"),
    (category_exists_agrees_get_category [catR] (some "Resistors")).2 catR rfl⟩

/-- Claim C2: `get_part_price` returns the price of the first comma-separated
tier as a number; the empty string and malformed inputs give `None`, and the
function is total (the bare `except` means no exception escapes).  The last
conjunct states that any returned value is exactly `float` applied to the
second `':'`-field of the first `','`-field of the input. -/
theorem get_part_price_first_tier :
    get_part_price "" = none
    ∧ get_part_price "20-180:0.004285714,200-780:0.003485714" = some (mkRat 4285714 1000000000)
    ∧ get_part_price "garbage" = none
    ∧ get_part_price "20-180:abc,1:2" = none
    ∧ get_part_price "20-180:1.5e-2,200-:9" = some (mkRat 3 200)
    ∧ (∀ s : String, get_part_price s = none
        ∨ ∃ q, get_part_price s = some q
            ∧ pyFloat ((pySplit ':' (pySplit ',' s.data).headI).getD 1 []) = some q) := by
  refine ⟨by decide, by decide, by decide, by decide, by decide, ?_⟩
  intro s
  unfold get_part_price
  split
  · exact Or.inl rfl
  · split
    · exact Or.inl rfl
    · next p hp =>
      cases hq : pyFloat p with
      | none => exact Or.inl rfl
      | some q =>
        refine Or.inr ⟨q, rfl, ?_⟩
        rw [List.getD_eq_getD_get?, hp]
        exact hq

theorem buildPart_some {category : Category} {now : Int} {part_price : Option Rat}
    {stock : Int} {pd : Component} {part : Part}
    (h : buildPart category now part_price stock pd = some part) :
    part.category_id = category.id
    ∧ (part.basic = true ↔ pd.libraryType = some "base") := by
  unfold buildPart at h
  cases h1 : pd.lcscPart with
  | none => rw [h1] at h; cases h
  | some lcsc =>
  rw [h1] at h
  cases h2 : pd.mfrPart with
  | none => rw [h2] at h; cases h
  | some mfr =>
  rw [h2] at h
  cases h3 : pd.package with
  | none => rw [h3] at h; cases h
  | some pkg =>
  rw [h3] at h
  cases h4 : pd.solderJoint with
  | none => rw [h4] at h; cases h
  | some sj =>
  rw [h4] at h
  cases h5 : pd.manufacturer with
  | none => rw [h5] at h; cases h
  | some manu =>
  rw [h5] at h
  cases h6 : pd.libraryType with
  | none => rw [h6] at h; cases h
  | some lib =>
  rw [h6] at h
  cases h7 : pd.description with
  | none => rw [h7] at h; cases h
  | some desc =>
  rw [h7] at h
  cases h8 : pd.datasheet with
  | none => rw [h8] at h; cases h
  | some ds =>
  rw [h8] at h
  cases h
  refine ⟨rfl, ?_⟩
  simp

theorem process_part_record_ok_some {categories : List Category} {now : Int}
    {pd : Component} {part : Part}
    (h : process_part_record categories now pd = Except.ok (some part)) :
    ∃ stock psn category priceStr,
      pd.stock = some stock ∧ ¬ stock = 0
      ∧ pd.secondCategory = some psn
      ∧ get_category categories (some psn) = some category
      ∧ pd.price = some priceStr
      ∧ buildPart category now (get_part_price priceStr) stock pd = some part := by
  unfold process_part_record at h
  cases h1 : pd.stock with
  | none => rw [h1] at h; cases h
  | some stock =>
  simp only [h1] at h
  by_cases hz : stock = 0
  · rw [if_pos hz] at h
    simp at h
  · rw [if_neg hz] at h
    cases h2 : pd.secondCategory with
    | none => simp only [h2] at h; exact Except.noConfusion h
    | some psn =>
    simp only [h2] at h
    cases h3 : get_category categories (some psn) with
    | none => rw [h3] at h; simp at h
    | some category =>
    rw [h3] at h
    cases h4 : pd.price with
    | none => simp only [h4] at h; exact Except.noConfusion h
    | some priceStr =>
    simp only [h4] at h
    cases h5 : buildPart category now (get_part_price priceStr) stock pd with
    | none => simp only [h5] at h; exact Except.noConfusion h
    | some part0 =>
    simp only [h5] at h
    have hpp : part0 = part := by
      have := h
      simp at this
      exact this
    subst hpp
    exact ⟨stock, psn, category, priceStr, rfl, hz, rfl, h3, rfl, h5⟩

/-- Claim C3: a component record whose stock field equals 0 is skipped
entirely by the part-processing loop: no `Part` is constructed and no
part upsert is performed for that record (the loop body is `continue`). -/
theorem stock_zero_skipped :
    ∀ (categories : List Category) (now : Int) (pd : Component),
      pd.stock = some 0 → process_part_record categories now pd = Except.ok none := by
  intro categories now pd h
  unfold process_part_record
  rw [h]
  simp

/-- Witness for C3: a concrete in-stock=0 record is skipped. -/
theorem stock_zero_skipped_witness :
    ({ lcscPart := some "C1", mfrPart := some "M1", package := some "0402",
       solderJoint := some 2, manufacturer := some "F", libraryType := some "base",
       description := some "d", datasheet := some "u", stock := some 0,
       price := some "20-180:0.004285714", firstCategory := some "Passives",
       secondCategory := some "Resistors" } : Component).stock = some 0
    ∧ process_part_record [] 0
        { lcscPart := some "C1", mfrPart := some "M1", package := some "0402",
          solderJoint := some 2, manufacturer := some "F", libraryType := some "base",
          description := some "d", datasheet := some "u", stock := some 0,
          price := some "20-180:0.004285714", firstCategory := some "Passives",
          secondCategory := some "Resistors" } = Except.ok none :=
  ⟨rfl, stock_zero_skipped [] 0 _ rfl⟩

/-- Claim C7: every constructed `Part` carries `category_id` equal to the id
of a category of the index whose `subcategory_name` equals the record's
`secondCategory`; and when the lookup resolves to no category the record is
rejected and never produces a `Part`. -/
theorem accepted_part_category_resolves :
    (∀ (categories : List Category) (now : Int) (pd : Component) (part : Part),
        process_part_record categories now pd = Except.ok (some part) →
        ∃ c, c ∈ categories ∧ c.subcategory_name = pd.secondCategory
          ∧ part.category_id = c.id
          ∧ get_category categories pd.secondCategory = some c)
    ∧ (∀ (categories : List Category) (now : Int) (pd : Component),
        get_category categories pd.secondCategory = none →
        ∀ part : Part, ¬ process_part_record categories now pd = Except.ok (some part)) := by
  constructor
  · intro categories now pd part h
    obtain ⟨stock, psn, category, priceStr, h1, hz, h2, h3, h4, h5⟩ :=
      process_part_record_ok_some h
    refine ⟨category, List.mem_of_find?_eq_some h3, ?_, (buildPart_some h5).1, ?_⟩
    · have := List.find?_some h3
      rw [h2]
      simpa using this
    · rw [h2]
      exact h3
  · intro categories now pd hnone part h
    obtain ⟨stock, psn, category, priceStr, h1, hz, h2, h3, h4, h5⟩ :=
      process_part_record_ok_some h
    rw [h2] at hnone
    rw [hnone] at h3
    cases h3

/-- Witness for C7: the concrete accepted record `compBase` resolves to
`catR`, and against an empty index the same record is rejected and yields no
`Part`. -/
theorem accepted_part_category_resolves_witness :
    process_part_record [catR] 0 compBase = Except.ok (some partBase)
    ∧ (∃ c, c ∈ [catR] ∧ c.subcategory_name = compBase.secondCategory
        ∧ partBase.category_id = c.id
        ∧ get_category [catR] compBase.secondCategory = some c)
    ∧ get_category [] compBase.secondCategory = none
    ∧ (∀ part : Part, ¬ process_part_record [] 0 compBase = Except.ok (some part)) :=
  ⟨rfl, accepted_part_category_resolves.1 [catR] 0 compBase partBase rfl,
    rfl, accepted_part_category_resolves.2 [] 0 compBase rfl⟩

/-- Counterexample to claim C10 as stated: a record whose `libraryType` key is
absent does not yield a `Part` with `basic = false` — the bracket access
`part_data['libraryType']` raises `KeyError`, so no `Part` is produced at all
(and the exception aborts the whole page-processing call). -/
theorem library_type_missing_raises :
    process_part_record
        [{ id := some 7, name := some "Passives", subcategory_name := some "Resistors" }] 0
        { lcscPart := some "C100", mfrPart := some "RC0402", package := some "0402",
          solderJoint := some 2, manufacturer := some "Yageo", libraryType := none,
          description := some "resistor", datasheet := some "u", stock := some 50,
          price := some "20-180:0.004285714", firstCategory := some "Passives",
          secondCategory := some "Resistors" } = Except.error ()
    ∧ ∀ part : Part, ¬ process_part_record
        [{ id := some 7, name := some "Passives", subcategory_name := some "Resistors" }] 0
        { lcscPart := some "C100", mfrPart := some "RC0402", package := some "0402",
          solderJoint := some 2, manufacturer := some "Yageo", libraryType := none,
          description := some "resistor", datasheet := some "u", stock := some 50,
          price := some "20-180:0.004285714", firstCategory := some "Passives",
          secondCategory := some "Resistors" } = Except.ok (some part) := by
  constructor
  · rfl
  · intro part h
    have h0 : (Except.ok (some part) : Except Unit (Option Part)) = Except.error () := by
      rw [← h]
      rfl
    exact Except.noConfusion h0

/-- Claim C10 (amended): for every record from which a `Part` is actually
constructed, `basic` is true exactly when the record's `libraryType` equals
the string "base" (so present values such as "Basic" or "expand" give false);
a record with the `libraryType` key absent raises `KeyError` and produces no
`Part` at all. -/
theorem basic_iff_library_type_base :
    ∀ (categories : List Category) (now : Int) (pd : Component) (part : Part),
      process_part_record categories now pd = Except.ok (some part) →
      (part.basic = true ↔ pd.libraryType = some "base") := by
  intro categories now pd part h
  obtain ⟨stock, psn, category, priceStr, h1, hz, h2, h3, h4, h5⟩ :=
    process_part_record_ok_some h
  exact (buildPart_some h5).2

/-- Witness for C10 (amended): the concrete accepted record `compBase` with
`libraryType = "base"` yields `partBase` with `basic = true`. -/
theorem basic_iff_library_type_base_witness :
    process_part_record [catR] 0 compBase = Except.ok (some partBase)
    ∧ (partBase.basic = true ↔ compBase.libraryType = some "base") :=
  ⟨rfl, basic_iff_library_type_base [catR] 0 compBase partBase rfl⟩

/-- Claim C1: applying a page sets `parts_fetched` to false exactly when the
response code is not the success code 200, or the payload carries no
component records, or the page yields zero accepted parts; when the flag
stays true the cursor has advanced to the page's returned `lastKey`.  The
second conjunct: the loop stops exactly when the flag is false. -/
theorem pagination_termination :
    (∀ (oracle : Category → Category) (now : Int) (st : LoopState)
        (response : Response) (st1 : LoopState),
        applyPage oracle now st response = Except.ok st1 →
        ((st1.parts_fetched = false ↔
            (response.code ≠ some 200 ∨ response.infos = []
              ∨ accepted_parts oracle now st response = []))
          ∧ (st1.parts_fetched = true → st1.last_key = response.lastKeyOf)))
    ∧ (∀ (oracle : Category → Category) (api : Option String → Response)
        (fuel : List (Int × List Nat)) (rs : RunState),
        rs.st.parts_fetched = false →
        get_parts_run oracle api fuel rs = Except.ok rs) := by
  constructor
  · intro oracle now st response st1 h
    unfold applyPage at h
    split at h
    · next hcond =>
      cases hext : extract_and_process_components oracle st.categories now response with
      | error err => rw [hext] at h; exact Except.noConfusion h
      | ok r =>
        rw [hext] at h
        have hst : ({ st with
            categories := r.2.2,
            all_parts := st.all_parts ++ r.1,
            all_categories := st.all_categories ++ r.2.1,
            last_key := response.lastKeyOf,
            parts_fetched := !r.1.isEmpty } : LoopState) = st1 := by
          simpa using h
        subst hst
        have hacc : accepted_parts oracle now st response = r.1 := by
          unfold accepted_parts
          rw [hext]
        constructor
        · simp [hacc, hcond.1, hcond.2, List.isEmpty_iff]
        · intro hfetched
          rfl
    · next hcond =>
      have hst : ({ st with parts_fetched := false } : LoopState) = st1 := by
        simpa using h
      subst hst
      constructor
      · refine iff_of_true rfl ?_
        rcases not_and_or.mp hcond with hc | hi
        · exact Or.inl hc
        · exact Or.inr (Or.inl (not_not.mp hi))
      · intro hfetched
        simp at hfetched
  · intro oracle api fuel rs hfalse
    cases fuel with
    | nil => rfl
    | cons it rest =>
      obtain ⟨t, order⟩ := it
      unfold get_parts_run
      rw [if_neg]
      simp [hfalse]

/-- Witness for C1: a concrete non-success page response sets the flag to
false, and the disjunction holds for it. -/
theorem pagination_termination_witness :
    applyPage (fun c => c) 0 stReady respBad = Except.ok stStopped
    ∧ ((stStopped.parts_fetched = false ↔
          (respBad.code ≠ some 200 ∨ respBad.infos = []
            ∨ accepted_parts (fun c => c) 0 stReady respBad = []))
        ∧ (stStopped.parts_fetched = true → stStopped.last_key = respBad.lastKeyOf)) :=
  ⟨rfl, pagination_termination.1 (fun c => c) 0 stReady respBad stStopped rfl⟩

theorem ensureToken_not_expired (t : Int) (st : LoopState) :
    ¬ (ensureToken t st).token_expires < t := by
  unfold ensureToken
  split
  · simp only
    omega
  · next hc => exact hc

theorem applyFutures_fetchLog (oracle : Category → Category) (now : Int) :
    ∀ (order : List Nat) (rs rs1 : RunState),
      applyFutures oracle now order rs = Except.ok rs1 → rs1.fetchLog = rs.fetchLog := by
  intro order
  induction order with
  | nil =>
    intro rs rs1 h
    cases h
    rfl
  | cons i rest ih =>
    intro rs rs1 h
    unfold applyFutures at h
    cases hg : rs.futures.get? i with
    | none =>
      simp only [hg] at h
      exact ih rs rs1 h
    | some response =>
      simp only [hg] at h
      cases hap : applyPage oracle now rs.st response with
      | error err => simp only [hap] at h; exact Except.noConfusion h
      | ok st1 =>
        simp only [hap] at h
        have := ih _ _ h
        simpa using this

theorem get_parts_run_fetchLog_valid (oracle : Category → Category)
    (api : Option String → Response) :
    ∀ (fuel : List (Int × List Nat)) (rs rs1 : RunState),
      (∀ p ∈ rs.fetchLog, ¬ p.2 < p.1) →
      get_parts_run oracle api fuel rs = Except.ok rs1 →
      ∀ p ∈ rs1.fetchLog, ¬ p.2 < p.1 := by
  intro fuel
  induction fuel with
  | nil =>
    intro rs rs1 hinv h
    cases h
    exact hinv
  | cons it rest ih =>
    intro rs rs1 hinv h
    obtain ⟨t, order⟩ := it
    unfold get_parts_run at h
    split at h
    · cases hrun : runIter oracle api t order rs with
      | error err => rw [hrun] at h; exact Except.noConfusion h
      | ok rs2 =>
        rw [hrun] at h
        refine ih rs2 rs1 ?_ h
        have hrun2 : applyFutures oracle t order
            { rs with
              st := ensureToken t rs.st,
              futures := rs.futures ++ [api (ensureToken t rs.st).last_key],
              fetchLog := rs.fetchLog ++ [(t, (ensureToken t rs.st).token_expires)] } =
            Except.ok rs2 := hrun
        have hlog : rs2.fetchLog =
            rs.fetchLog ++ [(t, (ensureToken t rs.st).token_expires)] := by
          have := applyFutures_fetchLog oracle t order _ _ hrun2
          simpa using this
        rw [hlog]
        intro p hp
        rcases List.mem_append.mp hp with hold | hnew
        · exact hinv p hold
        · rw [List.mem_singleton] at hnew
          subst hnew
          exact ensureToken_not_expired t rs.st
    · cases h
      exact hinv

/-- Claim C5: the token guard runs before every page request; right after the
guard the token is never expired (its tracked expiry is not in the past), a
reissued token is valid for exactly 1800 seconds (30 minutes) from issuance,
and consequently every page request recorded in a run's submission log was
issued with an unexpired token. -/
theorem no_fetch_with_expired_token :
    (∀ (t : Int) (st : LoopState), ¬ (ensureToken t st).token_expires < t)
    ∧ (∀ (t : Int) (st : LoopState), st.token_expires < t →
        (ensureToken t st).token_expires = t + 1800)
    ∧ (∀ (oracle : Category → Category) (api : Option String → Response)
        (fuel : List (Int × List Nat)) (rs rs1 : RunState),
        rs.fetchLog = [] →
        get_parts_run oracle api fuel rs = Except.ok rs1 →
        ∀ p ∈ rs1.fetchLog, ¬ p.2 < p.1) := by
  refine ⟨ensureToken_not_expired, ?_, ?_⟩
  · intro t st h
    unfold ensureToken
    rw [if_pos h]
  · intro oracle api fuel rs rs1 hnil h
    refine get_parts_run_fetchLog_valid oracle api fuel rs rs1 ?_ h
    rw [hnil]
    intro p hp
    cases hp

/-- Witness for C5: an expired token (expiry 1800, now 2000) passes the guard
unexpired and is reissued with expiry 2000 + 1800; a concrete run keeps the
submission-log invariant. -/
theorem no_fetch_with_expired_token_witness :
    (¬ (ensureToken 2000 stReady).token_expires < 2000)
    ∧ stReady.token_expires < 2000
    ∧ (ensureToken 2000 stReady).token_expires = 2000 + 1800
    ∧ (∀ p ∈ rs0.fetchLog, ¬ p.2 < p.1) :=
  ⟨no_fetch_with_expired_token.1 2000 stReady, by decide,
    no_fetch_with_expired_token.2.1 2000 stReady (by decide),
    no_fetch_with_expired_token.2.2 (fun c => c) api3 [] rs0 rs0 rfl rfl⟩

/-- Claim C8 is violated by the code (divergence witness): the inner
`for future in as_completed(future_to_url)` loop iterates over every future
ever submitted, because the dict is never pruned, and `as_completed` yields
already-completed futures in arbitrary order.  With three non-empty pages and
the admissible completion orders `[0]`, `[0, 1]`, `[1, 0, 2]` the run applies
page 1 before a (re-)application of page 0 in iteration 3, and applies pages
0 and 1 several times: the application log is `[0, 0, 1, 1, 0, 2]` and six
parts are accumulated from three one-part pages — application to shared state
is not serialized in cursor order. -/
theorem pages_applied_out_of_cursor_order :
    (match get_parts_run (fun c => c) api3 [(0, [0]), (0, [0, 1]), (0, [1, 0, 2])] rs0 with
      | Except.ok rs => some (rs.applyLog, rs.st.all_parts.length, rs.st.last_key)
      | Except.error _ => none) = some ([0, 0, 1, 1, 0, 2], 6, some "k2") := rfl

theorem mem_batch_of {n s i k : Nat} :
    k ∈ batch_of n s i ↔ i * s ≤ k ∧ k < i * s + s ∧ k < n := by
  unfold batch_of
  rw [List.mem_iff_getElem?]
  constructor
  · rintro ⟨j, hj⟩
    rw [List.getElem?_take] at hj
    by_cases hjs : j < s
    · rw [if_pos hjs, List.getElem?_drop] at hj
      by_cases hlt : i * s + j < n
      · rw [List.getElem?_range hlt] at hj
        injection hj with hk
        omega
      · rw [List.getElem?_eq_none (by simpa using Nat.le_of_not_lt hlt)] at hj
        cases hj
    · rw [if_neg hjs] at hj
      cases hj
  · rintro ⟨h1, h2, h3⟩
    refine ⟨k - i * s, ?_⟩
    rw [List.getElem?_take, if_pos (by omega), List.getElem?_drop]
    have hik : i * s + (k - i * s) = k := by omega
    rw [hik, List.getElem?_range h3]

/-- Counterexample to claim C6 as stated: there is no clamping for small
inputs — at `total_parts = 0` the code computes `chunks = 0` and the
batch-size computation `math.ceil(total_parts / chunks)` divides by zero
(`ZeroDivisionError`, modelled as `none`). -/
theorem batch_size_division_by_zero_at_zero :
    chunks 0 = 0 ∧ parts_per_chunk 0 = none := ⟨rfl, rfl⟩

/-- Claim C6 (amended): for every total part count `n ≥ 1` the pipeline uses
`chunks = ceil(n/100)` batches of size `s = ceil(n/chunks)`; both are at
least 1, and every part index `k < n` lies in exactly one batch (full
coverage, no overlap, no gap).  For `n = 250` this gives 3 batches of size
84.  At `n = 0` the computation instead raises `ZeroDivisionError`. -/
theorem batch_partition_covers :
    (∀ n : Nat, 1 ≤ n →
      ∃ s, parts_per_chunk n = some s ∧ 1 ≤ s ∧ 1 ≤ chunks n ∧ n ≤ chunks n * s
        ∧ (∀ k, k < n → ∃! i, i < chunks n ∧ k ∈ batch_of n s i))
    ∧ chunks 250 = 3 ∧ parts_per_chunk 250 = some 84 := by
  refine ⟨?_, rfl, rfl⟩
  intro n hn
  have hc : 1 ≤ chunks n := by
    unfold chunks
    rw [Nat.one_le_div_iff (by omega)]
    omega
  have hc0 : 0 < chunks n := hc
  refine ⟨(n + chunks n - 1) / chunks n, ?_, ?_, hc, ?_, ?_⟩
  · unfold parts_per_chunk
    rw [if_neg (by omega)]
  · rw [Nat.one_le_div_iff hc0]
    omega
  · have hdm := Nat.div_add_mod (n + chunks n - 1) (chunks n)
    have hmlt := Nat.mod_lt (n + chunks n - 1) hc0
    generalize hm : chunks n * ((n + chunks n - 1) / chunks n) = m at hdm ⊢
    omega
  · intro k hk
    have hs0 : 0 < (n + chunks n - 1) / chunks n := by
      rw [Nat.lt_iff_add_one_le, Nat.one_le_div_iff hc0]
      omega
    have hcov : n ≤ chunks n * ((n + chunks n - 1) / chunks n) := by
      have hdm := Nat.div_add_mod (n + chunks n - 1) (chunks n)
      have hmlt := Nat.mod_lt (n + chunks n - 1) hc0
      generalize hm : chunks n * ((n + chunks n - 1) / chunks n) = m at hdm ⊢
      omega
    set s := (n + chunks n - 1) / chunks n with hs
    refine ⟨k / s, ⟨?_, ?_⟩, ?_⟩
    · rw [Nat.div_lt_iff_lt_mul hs0]
      calc k < n := hk
        _ ≤ chunks n * s := hcov
    · rw [mem_batch_of]
      refine ⟨Nat.div_mul_le_self k s, ?_, hk⟩
      have hdm := Nat.div_add_mod k s
      have hmlt := Nat.mod_lt k hs0
      rw [Nat.mul_comm] at hdm
      generalize hq : k / s * s = q at hdm ⊢
      omega
    · rintro j ⟨hjc, hjmem⟩
      rw [mem_batch_of] at hjmem
      obtain ⟨hj1, hj2, _⟩ := hjmem
      have := Nat.div_eq_of_lt_le (by simpa [Nat.mul_comm] using hj1)
        (by rw [Nat.succ_mul]; omega)
      omega

/-- Witness for C6 (amended) at the concrete total 250. -/
theorem batch_partition_covers_witness :
    (1 : Nat) ≤ 250
    ∧ (∃ s, parts_per_chunk 250 = some s ∧ 1 ≤ s ∧ 1 ≤ chunks 250 ∧ 250 ≤ chunks 250 * s
        ∧ (∀ k, k < 250 → ∃! i, i < chunks 250 ∧ k ∈ batch_of 250 s i)) :=
  ⟨by decide, batch_partition_covers.1 250 (by decide)⟩

end Jlcpcb
